import Mathlib

/-!
Verification development for the gemini-diagram-mcp server.

Each TypeScript function that the properties below mention is translated
into a Lean definition of the same name (POSIX path semantics; JavaScript
strings are modelled as Lean `String`; `Date.now()` timestamps as `Int`;
the nondeterministic `randomUUID()` is passed in as an explicit argument).
-/

namespace GeminiDiagram

/-! ## Basic string utilities modelling the JavaScript primitives used -/

/-- Model of `needle` being a prefix of `hay` (character lists). -/
def isPfx : List Char → List Char → Bool
  | [], _ => true
  | _ :: _, [] => false
  | a :: as, b :: bs => a == b && isPfx as bs

/-- Model of substring containment on character lists. -/
def isSub (needle : List Char) : List Char → Bool
  | [] => isPfx needle []
  | b :: bs => isPfx needle (b :: bs) || isSub needle bs

/-- Model of JavaScript `s.includes(sub)` (substring containment). -/
def jsIncludes (s sub : String) : Bool :=
  isSub sub.toList s.toList

/-- ASCII lowercase of one character. -/
def charLower (c : Char) : Char :=
  if 65 ≤ c.toNat ∧ c.toNat ≤ 90 then Char.ofNat (c.toNat + 32) else c

/-- Model of JavaScript `s.toLowerCase()` (ASCII case folding; every string
the verified properties feed to it is ASCII). -/
def jsToLower (s : String) : String := String.mk (s.data.map charLower)

/-- ASCII whitespace test (the whitespace characters that occur in the
configuration strings this development reasons about). -/
def isWs (c : Char) : Bool := c == ' ' || c == '\t' || c == '\n' || c == '\r'

/-- Model of JavaScript `s.trim()`. -/
def jsTrim (s : String) : String :=
  String.mk (((s.data.dropWhile isWs).reverse.dropWhile isWs).reverse)

/-! ## `src/auth.ts` : `parseAuthMode` -/

/-- The TypeScript union type `McpAuthMode = "token" | "oidc" | "none"`. -/
inductive McpAuthMode
  | token
  | oidc
  | noneMode
  deriving DecidableEq, Repr

/-- `parseAuthMode` from `src/auth.ts`: normalize (default "token", trim,
lowercase) and match against the recognized spellings, defaulting to token. -/
def parseAuthMode (raw : Option String) : McpAuthMode :=
  let v := jsToLower (jsTrim (raw.getD "token"))
  if v = "token" ∨ v = "static" ∨ v = "bearer-token" then .token
  else if v = "oidc" ∨ v = "jwt" ∨ v = "oidc-jwt" then .oidc
  else if v = "none" ∨ v = "off" ∨ v = "disabled" then .noneMode
  else .token

/-! ## `src/utils/session.ts` : session store with lazy expiry -/

/-- The `Session` interface of `src/utils/session.ts`. -/
structure Session where
  lastPrompt : String
  lastOutput : String
  lastType : String
  aspectRatio : Option String
  size : Option String
  timestamp : Int
  deriving DecidableEq, Repr

/-- `SESSION_EXPIRY_MS = 60 * 60 * 1000` (one hour). -/
def sessionExpiryMs : Int := 60 * 60 * 1000

/-- `loadSession` from `src/utils/session.ts`, as a state transformer.
The on-disk session file is modelled as `Option Session` (a missing or
unparsable file is `Option.none`); `now` models `Date.now()`.  Returns the
read result together with the post-read store state: an expired session is
reported absent and the file is deleted (`clearSession`) by the same read. -/
def loadSession (now : Int) (st : Option Session) :
    Option Session × Option Session :=
  match st with
  | Option.none => (Option.none, Option.none)
  | Option.some s =>
    if now - s.timestamp > sessionExpiryMs then (Option.none, Option.none)
    else (Option.some s, Option.some s)

/-! ## `withRetry` from the Gemini client (`src/http.ts`, second module) -/

/-- An error thrown by an attempt (only its message matters to the policy). -/
structure RErr where
  msg : String
  deriving DecidableEq, Repr

/-- The non-retryable test inside `withRetry`: the lowercased message
mentions an invalid API key, quota, or permission denial. -/
def isFatalErr (e : RErr) : Bool :=
  jsIncludes (jsToLower e.msg) "invalid api key" ||
  jsIncludes (jsToLower e.msg) "quota" ||
  jsIncludes (jsToLower e.msg) "permission denied"

/-- Outcome of one run of `withRetry`: the value returned or error thrown,
the number of calls made to `fn`, and the list of backoff delays slept. -/
structure RetryTrace (A : Type) where
  result : Except RErr A
  calls : Nat
  delays : List Nat
  deriving Repr

/-- The `for` loop of `withRetry`.  `f k` is the outcome of the `k`-th call
of `fn` (0-based); `remaining` counts loop iterations left; `attempt` is the
loop index; `delays` accumulates the `baseDelayMs * 2^attempt` sleeps;
`lastErr` models the `lastError` variable (thrown when the loop exhausts;
`Option.none` is unreachable for `maxR > 0`). -/
def retryLoop {A : Type} (f : Nat → Except RErr A) (base maxR : Nat) :
    Nat → Nat → List Nat → Option RErr → RetryTrace A
  | 0, attempt, delays, lastErr =>
    ⟨.error (lastErr.getD ⟨"undefined"⟩), attempt, delays⟩
  | r + 1, attempt, delays, _ =>
    match f attempt with
    | .ok a => ⟨.ok a, attempt + 1, delays⟩
    | .error e =>
      if isFatalErr e then ⟨.error e, attempt + 1, delays⟩
      else if attempt < maxR - 1 then
        retryLoop f base maxR r (attempt + 1) (delays ++ [base * 2 ^ attempt])
          (Option.some e)
      else
        retryLoop f base maxR r (attempt + 1) delays (Option.some e)

/-- `withRetry(fn)` with the default `maxRetries = 3`, `baseDelayMs = 1000`. -/
def withRetry {A : Type} (f : Nat → Except RErr A) : RetryTrace A :=
  retryLoop f 1000 3 3 0 [] Option.none

/-! ## Gemini client (`src/http.ts`, second module): prompt classification -/

/-- `DIAGRAM_TYPES`: ordered record of category → (aspectRatio, composition),
in source insertion order. -/
def DIAGRAM_TYPES : List (String × String × String) :=
  [("chart", "16:9",
    "Data visualization with clear labels, axes if needed, legend"),
   ("comparison", "16:9",
    "Side-by-side panels, clear contrast between options"),
   ("flow", "16:9",
    "Sequential stages connected by arrows, left-to-right or top-to-bottom"),
   ("architecture", "4:3",
    "System components with connections, layered structure"),
   ("timeline", "16:9",
    "Horizontal progression with milestones, dates/phases marked"),
   ("hierarchy", "4:3",
    "Tree structure, parent-child relationships, org chart style"),
   ("matrix", "1:1",
    "Grid layout, 2x2 or larger, quadrants with labels"),
   ("hero", "2:1",
    "Abstract visual, no text, atmospheric, brand-focused"),
   ("visualization", "16:9",
    "Process or data visualization with clear flow")]

/-- Look up a category in `DIAGRAM_TYPES`; `DIAGRAM_TYPES[detection.type] ||
DIAGRAM_TYPES.chart` falls back to the chart entry. -/
def diagramTypeConfig (t : String) : String × String :=
  match DIAGRAM_TYPES.find? (fun p => p.1 = t) with
  | Option.some p => p.2
  | Option.none =>
    ("16:9", "Data visualization with clear labels, axes if needed, legend")

/-- `TYPE_KEYWORDS`: category → trigger phrases, in source insertion order. -/
def TYPE_KEYWORDS : List (String × List String) :=
  [("comparison",
    ["comparison", "compare", "vs", "versus", "before after", "before/after",
     "old new", "old/new", "difference", "improvement", "baseline"]),
   ("flow",
    ["flow", "process", "steps", "workflow", "pipeline", "sequence",
     "journey", "procedure", "→", "->", "then", "next"]),
   ("architecture",
    ["architecture", "system", "infrastructure", "layers", "components",
     "stack", "design", "structure", "diagram"]),
   ("timeline",
    ["timeline", "roadmap", "phases", "milestones", "history", "evolution",
     "schedule", "plan"]),
   ("hierarchy",
    ["hierarchy", "org chart", "organization", "tree", "taxonomy",
     "parent child", "inheritance"]),
   ("matrix",
    ["matrix", "grid", "table", "features", "pricing", "tiers", "plans",
     "quadrant", "2x2"]),
   ("chart",
    ["chart", "graph", "data", "metrics", "statistics", "analytics", "bar",
     "line", "pie", "progress"]),
   ("hero", ["hero", "header", "banner", "cover", "abstract", "visual"]),
   ("visualization",
    ["visualization", "infographic", "overview", "summary"])]

/-- Word count of a trigger phrase: `keyword.split(" ").length`.  For a
single-character separator, the length of the JavaScript split is one more
than the number of occurrences of the separator. -/
def keywordWords (kw : String) : Nat := kw.data.count ' ' + 1

/-- Score of one category against the lowercased prompt: the inner loop of
`detectTypeWithConfidence` (add the word count of each contained phrase). -/
def categoryScore (lower : String) (kws : List String) : Nat :=
  kws.foldl (fun acc kw => if jsIncludes lower kw then acc + keywordWords kw
                           else acc) 0

/-- The `scores` record, in `Object.entries` (insertion) order. -/
def allScores (lower : String) : List (String × Nat) :=
  TYPE_KEYWORDS.map (fun p => (p.1, categoryScore lower p.2))

/-- Stable descending insertion by score (model of the stable JavaScript
`sort((a, b) => b[1] - a[1])`): `x` goes before the first entry it is not
strictly beaten by. -/
def insertDesc (x : String × Nat) : List (String × Nat) → List (String × Nat)
  | [] => [x]
  | y :: ys => if x.2 ≥ y.2 then x :: y :: ys else y :: insertDesc x ys

/-- Stable descending sort by score. -/
def sortDesc : List (String × Nat) → List (String × Nat)
  | [] => []
  | x :: xs => insertDesc x (sortDesc xs)

/-- `sorted`: the positive scores, sorted descending (stable). -/
def sortedScores (lower : String) : List (String × Nat) :=
  sortDesc ((allScores lower).filter (fun p => p.2 > 0))

/-- The confidence union type `"high" | "medium" | "low"`. -/
inductive Confidence
  | high
  | medium
  | low
  deriving DecidableEq, Repr

/-- The `TypeDetection` interface. -/
structure TypeDetection where
  type : String
  confidence : Confidence
  alternativeTypes : List String
  reasoning : String
  deriving DecidableEq, Repr

/-- `hasCompetition`: `sorted.length > 1 && sorted[1][1] >= topScore * 0.7`.
The float product is modelled by the exact rational comparison
`10 * runnerUp ≥ 7 * top`, which coincides with the IEEE-double comparison
for every pair of integer scores reachable here (checked exhaustively for
scores up to 100; category scores are bounded by the total word count of a
category's phrase list, far below that). -/
def hasCompetition (sorted : List (String × Nat)) (topScore : Nat) : Bool :=
  match sorted with
  | _ :: runner :: _ => 10 * runner.2 ≥ 7 * topScore
  | _ => false

/-- `detectTypeWithConfidence` from the Gemini client module. -/
def detectTypeWithConfidence (prompt : String) : TypeDetection :=
  let lower := jsToLower prompt
  let sorted := sortedScores lower
  match sorted with
  | [] =>
    { type := "visualization", confidence := .low
      alternativeTypes := ["chart", "flow", "architecture"]
      reasoning := "No specific type keywords found. Consider specifying: chart, flow, architecture, comparison, timeline, hierarchy, or matrix." }
  | top :: rest =>
    let topType := top.1
    let topScore := top.2
    let alternatives := (rest.take 3).map (fun p => p.1)
    let competition := hasCompetition (top :: rest) topScore
    if topScore ≥ 3 ∧ competition = false then
      { type := topType, confidence := .high, alternativeTypes := alternatives
        reasoning := "Strong match for " ++ topType ++ " based on keywords." }
    else if topScore ≥ 2 ∨ (topScore ≥ 1 ∧ competition = false) then
      { type := topType, confidence := .medium
        alternativeTypes := alternatives
        reasoning := "Detected " ++ topType ++
          (if alternatives.length > 0 then
            ", but could also be " ++
              String.intercalate " or " (alternatives.take 2)
           else "") ++ "." }
    else
      { type := topType, confidence := .low, alternativeTypes := alternatives
        reasoning := "Weak signal for " ++ topType ++ ". " ++
          (if alternatives.length > 0 then
            "Consider: " ++ String.intercalate ", " alternatives
           else "") }

/-- `detectType`. -/
def detectType (prompt : String) : String :=
  (detectTypeWithConfidence prompt).type

/-- The `GenerateOptions` interface (absent/falsy fields are `Option.none`;
an empty string is falsy in JavaScript, so callers translating `""` use
`Option.none` exactly where the source tests truthiness). -/
structure GenerateOptions where
  type : Option String := Option.none
  aspectRatio : Option String := Option.none
  size : Option String := Option.none
  deriving DecidableEq, Repr

/-- The `PromptAnalysis` interface. -/
structure PromptAnalysis where
  shouldProceed : Bool
  recommendedType : String
  recommendedAspectRatio : String
  recommendedSize : String
  clarifyingQuestion : Option String := Option.none
  suggestions : Option (List String) := Option.none
  deriving DecidableEq, Repr

/-- JavaScript truthiness of an optional string (`undefined` and `""` are
falsy). -/
def truthy : Option String → Bool
  | Option.none => false
  | Option.some s => s ≠ ""

/-- `options.x || default`. -/
def orDefault (x : Option String) (d : String) : String :=
  match x with
  | Option.some s => if s = "" then d else s
  | Option.none => d

/-- The clarifying-question text built by `analyzePrompt` for low
confidence: lists every category with the first clause of its composition. -/
def clarifyingText (reasoning : String) : String :=
  "I\x27m not certain about the best visualization type. " ++ reasoning ++
  "\n\nWhat type would you prefer?\n" ++
  String.intercalate "\n"
    (DIAGRAM_TYPES.map
      (fun p => "- " ++ p.1 ++ ": " ++
        String.mk (p.2.2.data.takeWhile (fun c => !(c == ',')))))

/-- `analyzePrompt` from the Gemini client module. -/
def analyzePrompt (prompt : String) (options : GenerateOptions) :
    PromptAnalysis :=
  let detection := detectTypeWithConfidence prompt
  let typeConfig := diagramTypeConfig detection.type
  let lower := jsToLower prompt
  let recommendedSize :=
    if jsIncludes lower "presentation" || jsIncludes lower "slide" ||
       jsIncludes lower "4k" || jsIncludes lower "high res" then "4K"
    else if jsIncludes lower "thumbnail" || jsIncludes lower "small" ||
            jsIncludes lower "preview" then "1K"
    else orDefault options.size "2K"
  let recommendedAspectRatio :=
    if jsIncludes lower "square" then "1:1"
    else if jsIncludes lower "wide" || jsIncludes lower "banner" ||
            jsIncludes lower "header" then "2:1"
    else if jsIncludes lower "portrait" || jsIncludes lower "mobile" ||
            jsIncludes lower "story" then "9:16"
    else orDefault options.aspectRatio typeConfig.1
  let recommendedType :=
    match options.type with
    | Option.some t => if t ≠ "" ∧ t ≠ "auto" then t else detection.type
    | Option.none => detection.type
  let base : PromptAnalysis :=
    { shouldProceed := true
      recommendedType := recommendedType
      recommendedAspectRatio := recommendedAspectRatio
      recommendedSize := recommendedSize }
  let withClarify :=
    if detection.confidence = .low ∧ truthy options.type = false then
      { base with
        shouldProceed := false
        clarifyingQuestion := Option.some (clarifyingText detection.reasoning) }
    else base
  if detection.confidence = .medium ∧ truthy options.type = false then
    { withClarify with
      suggestions := Option.some
        (("Detected: " ++ detection.type ++ " (medium confidence)") ::
          detection.alternativeTypes.map (fun t => "Alternative: " ++ t)) }
  else withClarify

/-! ## POSIX path model (`node:path` as used by the server) -/

/-- Split a character list on a separator character (model of
`s.split(sep)` for a one-character separator). -/
def splitOnChar (sep : Char) : List Char → List (List Char)
  | [] => [[]]
  | c :: cs =>
    match splitOnChar sep cs with
    | [] => [[]]
    | h :: t => if c == sep then [] :: h :: t else (c :: h) :: t

/-- The `/`-separated components of a path. -/
def pathComps (s : String) : List String :=
  (splitOnChar '/' s.data).map String.mk

/-- `path.isAbsolute` (POSIX). -/
def isAbsolutePath (s : String) : Bool := isPfx ['/'] s.data

/-- Model of `s.startsWith(pre)`. -/
def strStartsWith (s pre : String) : Bool := isPfx pre.data s.data

/-- Model of `s.endsWith(suf)`. -/
def strEndsWith (s suf : String) : Bool :=
  isPfx suf.data.reverse s.data.reverse

/-- Resolution of path components against a stack of already-resolved
components, starting from the filesystem root: `""` and `"."` are dropped,
`".."` pops one component (a no-op at the root), anything else is pushed.
This is `path.resolve`'s normalization for absolute paths. -/
def resolveComps (acc : List String) : List String → List String
  | [] => acc
  | c :: cs =>
    if c = "" ∨ c = "." then resolveComps acc cs
    else if c = ".." then resolveComps acc.dropLast cs
    else resolveComps (acc ++ [c]) cs

/-- `path.resolve(dir)` for an absolute `dir` (normalize). -/
def pathResolve1 (dir : String) : String :=
  "/" ++ String.intercalate "/" (resolveComps [] (pathComps dir))

/-- `path.resolve(dir, name)` for an absolute `dir`: an absolute `name`
wins, otherwise `name` is resolved relative to `dir`. -/
def pathResolve2 (dir name : String) : String :=
  if isAbsolutePath name then pathResolve1 name
  else "/" ++ String.intercalate "/"
    (resolveComps [] (pathComps dir ++ pathComps name))

/-- `path.basename` (POSIX): drop trailing separators, then take the last
component; a string of only separators has basename `""`. -/
def pathBasename (s : String) : String :=
  let r := s.data.reverse.dropWhile (fun c => c == '/')
  String.mk ((r.takeWhile (fun c => !(c == '/'))).reverse)

/-- `path.dirname` (POSIX). -/
def pathDirname (p : String) : String :=
  let r := p.data.reverse.dropWhile (fun c => c == '/')
  let r2 := (r.dropWhile (fun c => !(c == '/'))).dropWhile (fun c => c == '/')
  if r2 = [] then (if isAbsolutePath p then "/" else ".")
  else String.mk r2.reverse

/-- `path.extname` (POSIX), for the common shapes that arise here: the
suffix of the basename from its last dot, empty when the basename has no
dot, starts with its only dot, or is just dots. -/
def pathExtname (p : String) : String :=
  let b := (pathBasename p).data
  let afterLastDot := b.reverse.takeWhile (fun c => !(c == '.'))
  if afterLastDot.length = b.length then ""
  else if b.length - afterLastDot.length ≤ 1 then ""
  else if b.all (fun c => c == '.') then ""
  else String.mk ('.' :: afterLastDot.reverse)

/-- `path.basename(p, ext)`: additionally strip `ext` when the basename
ends with it without being exactly it. -/
def pathBasenameExt (p ext : String) : String :=
  let b := pathBasename p
  if b ≠ ext ∧ strEndsWith b ext then
    String.mk (b.data.take (b.data.length - ext.data.length))
  else b

/-- Normalization used by `path.join` (POSIX): like `resolveComps` but a
leading `".."` of a relative path is kept rather than dropped. -/
def joinComps (isAbs : Bool) (acc : List String) : List String → List String
  | [] => acc
  | c :: cs =>
    if c = "" ∨ c = "." then joinComps isAbs acc cs
    else if c = ".." then
      match acc.getLast? with
      | Option.some l =>
        if l = ".." then joinComps isAbs (acc ++ [c]) cs
        else joinComps isAbs acc.dropLast cs
      | Option.none =>
        if isAbs then joinComps isAbs acc cs else joinComps isAbs [c] cs
    else joinComps isAbs (acc ++ [c]) cs

/-- `path.join(dir, name)` (POSIX). -/
def pathJoin (dir name : String) : String :=
  let isAbs := isAbsolutePath dir
  let comps := joinComps isAbs [] (pathComps dir ++ pathComps name)
  let body := String.intercalate "/" comps
  if isAbs then "/" ++ body else (if body = "" then "." else body)

/-! ## `src/mcp.ts` : filenames and output-path resolution -/

/-- First eight characters of a UUID: `randomUUID().slice(0, 8)`. -/
def uuidSlice8 (uuid : String) : String := String.mk (uuid.data.take 8)

/-- The character class `[a-zA-Z0-9._-]` kept by `sanitizeFilename`. -/
def keepChar (c : Char) : Bool :=
  (97 ≤ c.toNat ∧ c.toNat ≤ 122) ∨ (65 ≤ c.toNat ∧ c.toNat ≤ 90) ∨
  (48 ≤ c.toNat ∧ c.toNat ≤ 57) ∨ c == '.' ∨ c == '_' ∨ c == '-'

/-- `ensurePngExtension`: append `.png` unless the lowercased name already
ends with it. -/
def ensurePngExtension (name : String) : String :=
  if strEndsWith (jsToLower name) ".png" then name else name ++ ".png"

/-- The `cleaned.replace(/\.png$/i, "")` step of the length guard. -/
def stripPngSuffixCI (s : String) : String :=
  if strEndsWith (jsToLower s) ".png" then
    String.mk (s.data.take (s.data.length - 4))
  else s

/-- `sanitizeFilename` from `src/mcp.ts`: basename, replace every character
outside `[a-zA-Z0-9._-]` with `_`, ensure a `.png` extension, replace a
degenerate result by a random name, and cap the length at 180. -/
def sanitizeFilename (input uuid : String) : String :=
  let base := pathBasename input
  let cleaned := String.mk (base.data.map (fun c => if keepChar c then c else '_'))
  let cleaned := ensurePngExtension cleaned
  let cleaned :=
    if cleaned = ".png" ∨ jsTrim cleaned = "" then
      "image_" ++ uuidSlice8 uuid ++ ".png"
    else cleaned
  if cleaned.data.length > 180 then
    ensurePngExtension (stripPngSuffixCI (String.mk (cleaned.data.take 180)))
  else cleaned

/-- Split a character list into its maximal whitespace-free runs (model of
`split(/\s+/)` followed by dropping empty strings, which the caller's
`filter(w => w.length > 2)` does anyway). -/
def splitRunsGo (cur : List Char) : List Char → List (List Char)
  | [] => if cur = [] then [] else [cur.reverse]
  | c :: cs =>
    if isWs c then
      if cur = [] then splitRunsGo [] cs else cur.reverse :: splitRunsGo [] cs
    else splitRunsGo (c :: cur) cs

/-- `slugFromPrompt` from `src/mcp.ts`: lowercase, keep `[a-z0-9\s]`
(everything else becomes a space), split on whitespace, keep words longer
than two characters, take three, join with `_`, defaulting to `image`. -/
def slugFromPrompt (prompt : String) : String :=
  let lower := jsToLower prompt
  let mapped := lower.data.map
    (fun c => if (97 ≤ c.toNat ∧ c.toNat ≤ 122) ∨
                 (48 ≤ c.toNat ∧ c.toNat ≤ 57) ∨ isWs c then c else ' ')
  let words := ((splitRunsGo [] mapped).filter (fun w => w.length > 2)).take 3
  let joined := String.intercalate "_" (words.map String.mk)
  if joined = "" then "image" else joined

/-- `resolveOutputPath` from `src/mcp.ts`.  The JavaScript `if (output)`
truthiness test makes an empty string behave like an absent one.  Returns
the output path and the optional `filenameForUrl`. -/
def resolveOutputPath (outputDir : String) (output : Option String)
    (prompt : String) (allowAbsoluteOutput allowSubdirsInOutput : Bool)
    (uuid : String) : String × Option String :=
  let autoName := slugFromPrompt prompt ++ "_" ++ uuidSlice8 uuid ++ ".png"
  let autoRes :=
    (pathResolve2 outputDir autoName, Option.some (pathBasename autoName))
  match output with
  | Option.none => autoRes
  | Option.some out =>
    if out = "" then autoRes
    else if allowAbsoluteOutput && isAbsolutePath out then
      (out, Option.none)
    else if allowSubdirsInOutput then
      let withExt := ensurePngExtension out
      (pathResolve2 outputDir withExt, Option.some (pathBasename withExt))
    else
      let safeWithExt := sanitizeFilename out uuid
      (pathResolve2 outputDir safeWithExt,
       Option.some (pathBasename safeWithExt))

/-- `isPathInsideRoot` from `src/mcp.ts`. -/
def isPathInsideRoot (rootDir candidatePath : String) : Bool :=
  strStartsWith (pathResolve1 candidatePath) (pathResolve1 rootDir ++ "/")

/-! ## `src/http.ts` : the `/files/:filename` endpoint -/

/-- Responses of the file-retrieval endpoint. -/
inductive FileResp
  | badRequest
  | notFound
  | served (fullPath : String)
  deriving DecidableEq, Repr

/-- The `/files/:filename` handler of `startHttpServer`: reject a name that
is not its own basename, reject a resolved path not under the output root,
then 404 or serve.  `fileExists` models `fs.existsSync(fullPath)`. -/
def filesHandler (outputDir filename : String) (fileExists : Bool) :
    FileResp :=
  if filename ≠ pathBasename filename then .badRequest
  else
    let fullPath := pathResolve2 outputDir filename
    let root := pathResolve1 outputDir ++ "/"
    if strStartsWith fullPath root = false then .badRequest
    else if fileExists = false then .notFound
    else .served fullPath

/-! ## `src/http.ts` : transport registry (`/mcp`, `/messages`) -/

/-- The two transport classes stored in the `transports` record. -/
inductive TransportKind
  | streamable
  | sse
  deriving DecidableEq, Repr

/-- The `transports` record: session id → transport kind. -/
abbrev Transports := List (String × TransportKind)

/-- `transports[sessionId]`. -/
def lookupTransport (reg : Transports) (sid : String) : Option TransportKind :=
  (reg.find? (fun p => p.1 = sid)).map (fun p => p.2)

/-- Outcomes of the `/mcp` handler. -/
inductive McpOutcome
  | handledExisting
  | handledNewSession (sid : String)
  | badMismatch
  | badNoSession
  deriving DecidableEq, Repr

/-- The `app.all("/mcp")` handler: route to an existing streamable
transport, reject a session bound to the legacy SSE transport, create a new
session only for a POSTed initialize request without a session id, and
reject everything else.  A missing (or JavaScript-falsy) `mcp-session-id`
header is `Option.none`; `newId` models the generated `randomUUID()`. -/
def mcpHandler (reg : Transports) (sessionId : Option String)
    (isPost isInit : Bool) (newId : String) : McpOutcome × Transports :=
  match sessionId with
  | Option.some sid =>
    match lookupTransport reg sid with
    | Option.some .streamable => (.handledExisting, reg)
    | Option.some .sse => (.badMismatch, reg)
    | Option.none => (.badNoSession, reg)
  | Option.none =>
    if isPost && isInit then
      (.handledNewSession newId, reg ++ [(newId, .streamable)])
    else (.badNoSession, reg)

/-- Outcomes of the `/messages` handler. -/
inductive MsgOutcome
  | handled
  | badNoSse
  deriving DecidableEq, Repr

/-- The `app.post("/messages")` handler: only an existing legacy SSE
transport for the given `sessionId` query parameter is accepted. -/
def messagesHandler (reg : Transports) (sid : String) :
    MsgOutcome × Transports :=
  match lookupTransport reg sid with
  | Option.some .sse => (.handled, reg)
  | _ => (.badNoSse, reg)

/-! ## `src/mcp.ts` : the `generate_image` / `refine_image` tool handlers -/

/-- Uppercase-hex digit. -/
def hexDigit (n : Nat) : Char :=
  if n < 10 then Char.ofNat (48 + n) else Char.ofNat (55 + n)

/-- `encodeURIComponent` restricted to one-byte code points (the filenames
built by this server are sanitized ASCII). -/
def encodeURIComponentA (s : String) : String :=
  String.mk ((s.data.map (fun c =>
    if (97 ≤ c.toNat ∧ c.toNat ≤ 122) ∨ (65 ≤ c.toNat ∧ c.toNat ≤ 90) ∨
       (48 ≤ c.toNat ∧ c.toNat ≤ 57) ∨ c == '-' ∨ c == '_' ∨ c == '.' ∨
       c == '!' ∨ c == '~' ∨ c == '*' ∨ c == '\x27' ∨ c == '(' ∨ c == ')'
    then [c]
    else ['%', hexDigit (c.toNat / 16), hexDigit (c.toNat % 16)])).flatten)

/-- The options of `createGeminiDiagramServer` that the two tool handlers
read (already defaulted and, for `publicBaseUrl`, normalized). -/
structure ServerConfig where
  outputDir : String
  publicBaseUrl : Option String
  allowAbsoluteOutput : Bool
  allowSubdirsInOutput : Bool
  inlineImages : Bool
  deriving Repr

/-- The `LastImageSession` record held in the dispatcher's `last` variable. -/
structure LastImageSession where
  lastPrompt : String
  lastOutputPath : String
  lastType : String
  aspectRatio : Option String
  size : Option String
  deriving DecidableEq, Repr

/-- The `GenerationResult` returned by the external Gemini client. -/
structure GenerationResult where
  success : Bool
  outputPath : Option String := Option.none
  error : Option String := Option.none
  textResponse : Option String := Option.none
  aspectRatio : Option String := Option.none
  imageData : Option String := Option.none
  deriving DecidableEq, Repr

/-- Arguments of one `client.generate(prompt, outputPath, options)` call. -/
structure GenCall where
  prompt : String
  outputPath : String
  ty : String
  aspectRatio : String
  size : String
  deriving DecidableEq, Repr

/-- Arguments of one `client.refine(...)` call. -/
structure RefineCall where
  originalPrompt : String
  refinement : String
  outputPath : String
  ty : String
  aspectRatio : Option String
  size : Option String
  deriving DecidableEq, Repr

/-- A tool result: its joined text, the `isError` flag, and the optional
inline image block. -/
structure ToolResponse where
  text : String
  isError : Bool := false
  image : Option String := Option.none
  deriving DecidableEq, Repr

/-- Result of running a tool handler: the response, the dispatcher's `last`
state afterwards, and whether the external generation client was invoked. -/
structure HandlerOut where
  response : ToolResponse
  state : Option LastImageSession
  genCalled : Bool
  deriving Repr

/-- The `generate_image` handler of `createGeminiDiagramServer`.  The
external client is the function argument `gen`; `ty` is the zod-defaulted
`type` argument (`"auto"` when the caller supplied none); `uuid` models the
`randomUUID()` used for the output filename. -/
def generateImageHandler (cfg : ServerConfig)
    (gen : GenCall → GenerationResult) (st : Option LastImageSession)
    (prompt : String) (output : Option String) (ty : String)
    (aspect : Option String) (size : String) (uuid : String) : HandlerOut :=
  let analysis := analyzePrompt prompt
    { type := if ty = "auto" then Option.none else Option.some ty
      aspectRatio := aspect
      size := Option.some size }
  if analysis.shouldProceed = false ∧ analysis.clarifyingQuestion.isSome then
    { response := { text := analysis.clarifyingQuestion.getD "" }
      state := st
      genCalled := false }
  else
    let rp := resolveOutputPath cfg.outputDir output prompt
      cfg.allowAbsoluteOutput cfg.allowSubdirsInOutput uuid
    let finalType := analysis.recommendedType
    let finalAspectRatio := analysis.recommendedAspectRatio
    let finalSize := analysis.recommendedSize
    let result := gen ⟨prompt, rp.1, finalType, finalAspectRatio, finalSize⟩
    if result.success = false then
      { response := { text := "Failed to generate image: " ++
                        result.error.getD "undefined", isError := true }
        state := st
        genCalled := true }
    else
      let lines := ["Generated " ++ finalType ++ " (" ++
                      result.aspectRatio.getD "undefined" ++ ", " ++
                      finalSize ++ ")",
                    "Saved: " ++ result.outputPath.getD ""]
      let lines :=
        match cfg.publicBaseUrl, rp.2 with
        | Option.some baseUrl, Option.some f =>
          if isPathInsideRoot cfg.outputDir (result.outputPath.getD "") then
            lines ++ ["Download: " ++ baseUrl ++ "/files/" ++
                        encodeURIComponentA f,
                      "Note: download requires MCP_AUTH_TOKEN (Authorization header or ?token=...)."]
          else lines
        | _, _ => lines
      let lines :=
        match analysis.suggestions with
        | Option.some sugg =>
          if sugg.length > 0 then
            lines ++ ["Note: " ++ String.intercalate ". " sugg ++
                      ". Use \x27type\x27 parameter to override."]
          else lines
        | Option.none => lines
      { response := { text := String.intercalate "\n" lines
                      image := if cfg.inlineImages then result.imageData
                               else Option.none }
        state := Option.some
          { lastPrompt := prompt
            lastOutputPath := result.outputPath.getD ""
            lastType := finalType
            aspectRatio := result.aspectRatio
            size := Option.some finalSize }
        genCalled := true }

/-- The `refine_image` handler of `createGeminiDiagramServer`. -/
def refineImageHandler (cfg : ServerConfig)
    (gen : RefineCall → GenerationResult) (st : Option LastImageSession)
    (refinement uuid : String) : HandlerOut :=
  match st with
  | Option.none =>
    { response := { text := "No previous image to refine. Use generate_image first."
                    isError := true }
      state := Option.none
      genCalled := false }
  | Option.some last =>
    let baseName :=
      pathBasenameExt last.lastOutputPath (pathExtname last.lastOutputPath)
    let dir := pathDirname last.lastOutputPath
    let refinedPath :=
      pathJoin dir (baseName ++ "_refined_" ++ uuidSlice8 uuid ++ ".png")
    let result := gen ⟨last.lastPrompt, refinement, refinedPath,
                       last.lastType, last.aspectRatio, last.size⟩
    if result.success = false then
      { response := { text := "Failed to refine image: " ++
                        result.error.getD "undefined", isError := true }
        state := Option.some last
        genCalled := true }
    else
      { response := { text := "Refined image saved: " ++
                        result.outputPath.getD ""
                      image := if cfg.inlineImages then result.imageData
                               else Option.none }
        state := Option.some
          { lastPrompt := last.lastPrompt ++ "\n\nRefinement: " ++ refinement
            lastOutputPath := result.outputPath.getD ""
            lastType := last.lastType
            aspectRatio := last.aspectRatio
            size := last.size }
        genCalled := true }

/-- The `refine_image` handler of the standalone stdio server
(`src/index.ts`), which keeps its session in the on-disk store read through
`loadSession` (so the read itself can lazily evict an expired session). -/
def refineStdioHandler (gen : RefineCall → GenerationResult) (now : Int)
    (st : Option Session) (refinement : String) :
    ToolResponse × Option Session × Bool :=
  let read := loadSession now st
  match read.1 with
  | Option.none =>
    ({ text := "No previous image to refine. Use generate_image first."
       isError := true }, read.2, false)
  | Option.some s =>
    let baseName := pathBasenameExt s.lastOutput (pathExtname s.lastOutput)
    let dir := pathDirname s.lastOutput
    let refinedPath := pathJoin dir (baseName ++ "_refined.png")
    let result := gen ⟨s.lastPrompt, refinement, refinedPath, s.lastType,
                       s.aspectRatio, s.size⟩
    if result.success = false then
      ({ text := "Failed to refine image: " ++ result.error.getD "undefined"
         isError := true }, read.2, true)
    else
      ({ text := "Refined image: " ++ result.outputPath.getD "" },
       Option.some
         { lastPrompt := s.lastPrompt ++ "\n\nRefinement: " ++ refinement
           lastOutput := result.outputPath.getD ""
           lastType := s.lastType
           aspectRatio := Option.none
           size := Option.none
           timestamp := now }, true)

/-! Named forms of the hint scans inside `analyzePrompt` (the argument is
the already-lowercased prompt). -/

/-- Large-size hint: presentation / slide / 4k / high res. -/
def hasLargeSizeHint (lower : String) : Bool :=
  jsIncludes lower "presentation" || jsIncludes lower "slide" ||
  jsIncludes lower "4k" || jsIncludes lower "high res"

/-- Small-size hint: thumbnail / small / preview. -/
def hasSmallSizeHint (lower : String) : Bool :=
  jsIncludes lower "thumbnail" || jsIncludes lower "small" ||
  jsIncludes lower "preview"

/-- Square-aspect hint. -/
def hasSquareHint (lower : String) : Bool := jsIncludes lower "square"

/-- Wide-aspect hint: wide / banner / header. -/
def hasWideHint (lower : String) : Bool :=
  jsIncludes lower "wide" || jsIncludes lower "banner" ||
  jsIncludes lower "header"

/-- Portrait-aspect hint: portrait / mobile / story. -/
def hasPortraitHint (lower : String) : Bool :=
  jsIncludes lower "portrait" || jsIncludes lower "mobile" ||
  jsIncludes lower "story"

/-! ## Theorems -/

/-- C10: auth-mode parsing is total and yields one of exactly the three
modes; an absent value yields token; any value whose normalization matches
none of the recognized spellings silently falls back to token. -/
theorem parseAuthMode_total_default_fallback :
    parseAuthMode Option.none = .token ∧
    (∀ s : String,
      parseAuthMode (Option.some s) = .token ∨
      parseAuthMode (Option.some s) = .oidc ∨
      parseAuthMode (Option.some s) = .noneMode) ∧
    (∀ s : String,
      (jsToLower (jsTrim s) ≠ "token" ∧ jsToLower (jsTrim s) ≠ "static" ∧
       jsToLower (jsTrim s) ≠ "bearer-token" ∧
       jsToLower (jsTrim s) ≠ "oidc" ∧ jsToLower (jsTrim s) ≠ "jwt" ∧
       jsToLower (jsTrim s) ≠ "oidc-jwt" ∧
       jsToLower (jsTrim s) ≠ "none" ∧ jsToLower (jsTrim s) ≠ "off" ∧
       jsToLower (jsTrim s) ≠ "disabled") →
      parseAuthMode (Option.some s) = .token) := by
  refine ⟨by decide, fun s => ?_, fun s h => ?_⟩
  · simp only [parseAuthMode, Option.getD]
    split_ifs <;> simp
  · obtain ⟨h1, h2, h3, h4, h5, h6, h7, h8, h9⟩ := h
    simp only [parseAuthMode, Option.getD]
    split_ifs with ha hb hc
    · rfl
    · exact absurd hb (by simp [h4, h5, h6])
    · exact absurd hc (by simp [h7, h8, h9])
    · rfl

/-- Witness for C10: the unrecognized value "bogus" falls back to token. -/
theorem parseAuthMode_total_default_fallback_witness :
    parseAuthMode (Option.some "bogus") = .token :=
  parseAuthMode_total_default_fallback.2.2 "bogus" (by decide)

/-- C5: a stored session whose age exceeds the one-hour expiry window is
reported absent by a read and the same read evicts it from the store; a
session within the window is returned unchanged, store untouched. -/
theorem loadSession_lazy_expiry (now : Int) (s : Session) :
    (now - s.timestamp > sessionExpiryMs →
      loadSession now (Option.some s) = (Option.none, Option.none)) ∧
    (¬ now - s.timestamp > sessionExpiryMs →
      loadSession now (Option.some s) = (Option.some s, Option.some s)) := by
  constructor <;> intro h <;> simp [loadSession, h]

/-- Witness for C5: at two hours of age the session is evicted; at one
second of age it is returned unchanged. -/
theorem loadSession_lazy_expiry_witness :
    loadSession 7200000
      (Option.some ⟨"p", "o", "chart", Option.none, Option.none, 0⟩) =
      (Option.none, Option.none) ∧
    loadSession 1000
      (Option.some ⟨"p", "o", "chart", Option.none, Option.none, 0⟩) =
      (Option.some ⟨"p", "o", "chart", Option.none, Option.none, 0⟩,
       Option.some ⟨"p", "o", "chart", Option.none, Option.none, 0⟩) :=
  ⟨(loadSession_lazy_expiry 7200000 _).1 (by decide),
   (loadSession_lazy_expiry 1000 _).2 (by decide)⟩

/-- C8: a session id bound to the legacy SSE transport is rejected by the
modern endpoint with a bad request and the registry is not reattached; a
follow-up message whose id is not bound to an SSE transport is rejected
likewise; a request with an unknown id, or with no id and not a POSTed
initialize, is rejected without touching the registry. -/
theorem transport_mismatch_rejected :
    (∀ (reg : Transports) (sid : String) (isPost isInit : Bool)
       (newId : String),
      lookupTransport reg sid = Option.some .sse →
      mcpHandler reg (Option.some sid) isPost isInit newId =
        (.badMismatch, reg)) ∧
    (∀ (reg : Transports) (sid : String),
      lookupTransport reg sid ≠ Option.some .sse →
      messagesHandler reg sid = (.badNoSse, reg)) ∧
    (∀ (reg : Transports) (sid : String) (isPost isInit : Bool)
       (newId : String),
      lookupTransport reg sid = Option.none →
      mcpHandler reg (Option.some sid) isPost isInit newId =
        (.badNoSession, reg)) ∧
    (∀ (reg : Transports) (isPost isInit : Bool) (newId : String),
      (isPost && isInit) = false →
      mcpHandler reg Option.none isPost isInit newId =
        (.badNoSession, reg)) := by
  refine ⟨fun reg sid _ _ _ h => ?_, fun reg sid h => ?_,
          fun reg sid _ _ _ h => ?_, fun reg _ _ _ h => ?_⟩
  · simp [mcpHandler, h]
  · unfold messagesHandler
    rcases hl : lookupTransport reg sid with _ | k
    · rfl
    · cases k
      · rfl
      · exact absurd hl h
  · simp [mcpHandler, h]
  · simp [mcpHandler, h]

/-- Witness for C8: all four rejection shapes at concrete inputs. -/
theorem transport_mismatch_rejected_witness :
    mcpHandler [("a", .sse)] (Option.some "a") true true "n" =
      (.badMismatch, [("a", .sse)]) ∧
    messagesHandler [("a", .streamable)] "a" =
      (.badNoSse, [("a", .streamable)]) ∧
    mcpHandler [("a", .sse)] (Option.some "b") true true "n" =
      (.badNoSession, [("a", .sse)]) ∧
    mcpHandler [("a", .sse)] Option.none true false "n" =
      (.badNoSession, [("a", .sse)]) :=
  ⟨transport_mismatch_rejected.1 _ "a" true true "n" (by decide),
   transport_mismatch_rejected.2.1 _ "a" (by decide),
   transport_mismatch_rejected.2.2.1 _ "b" true true "n" (by decide),
   transport_mismatch_rejected.2.2.2 _ true false "n" (by decide)⟩

/-- C4: a refine call finding no live, non-expired session returns the
"No previous image to refine. Use generate_image first." outcome, never
invokes the external generation client, and leaves no session behind; this
holds for the shared dispatcher's in-memory state and for the stdio
server's on-disk store read through the lazily-expiring load. -/
theorem refine_without_session_guard (cfg : ServerConfig)
    (gen gen2 : RefineCall → GenerationResult) (refinement uuid : String)
    (now : Int) (st : Option Session) :
    (refineImageHandler cfg gen Option.none refinement uuid =
      { response :=
          { text := "No previous image to refine. Use generate_image first."
            isError := true }
        state := Option.none
        genCalled := false }) ∧
    ((loadSession now st).1 = Option.none →
      refineStdioHandler gen2 now st refinement =
        ({ text := "No previous image to refine. Use generate_image first."
           isError := true }, Option.none, false)) := by
  constructor
  · rfl
  · intro h
    have h2 : (loadSession now st).2 = Option.none := by
      rcases st with _ | s
      · rfl
      · unfold loadSession at h ⊢
        by_cases hc : now - s.timestamp > sessionExpiryMs
        · simp [hc]
        · simp [hc] at h
    have hpair : loadSession now st = (Option.none, Option.none) :=
      Prod.ext h h2
    simp [refineStdioHandler, hpair]

/-- Witness for C4: refining against an expired stored session (and, via
the first conjunct, against no session at all). -/
theorem refine_without_session_guard_witness :
    refineStdioHandler (fun _ => { success := true }) 7200000
      (Option.some ⟨"p", "o", "chart", Option.none, Option.none, 0⟩) "r" =
      ({ text := "No previous image to refine. Use generate_image first."
         isError := true }, Option.none, false) :=
  (refine_without_session_guard
      ⟨"/out", Option.none, false, false, false⟩ (fun _ => { success := true })
      (fun _ => { success := true }) "r" "u" 7200000
      (Option.some ⟨"p", "o", "chart", Option.none, Option.none, 0⟩)).2
    (by decide)

/-- A POSIX basename never contains a separator. -/
theorem pathBasename_no_slash (s : String) : '/' ∉ (pathBasename s).data := by
  unfold pathBasename
  intro hmem
  rw [show (String.mk ((((s.data.reverse.dropWhile fun c => c == '/').takeWhile
      fun c => !(c == '/')).reverse))).data =
      (((s.data.reverse.dropWhile fun c => c == '/').takeWhile
      fun c => !(c == '/')).reverse) from rfl, List.mem_reverse] at hmem
  have hp := List.mem_takeWhile_imp hmem
  simp at hp

/-- C7: the file-retrieval endpoint rejects with a bad request any name
containing a path separator (such names are never equal to their basename)
and any name whose resolved path does not stay under the output root,
regardless of whether the file exists; a file is served only when the name
is its own basename, the resolved path is under the root, and it exists. -/
theorem files_endpoint_flat_only (outputDir filename : String)
    (fileExists : Bool) :
    ('/' ∈ filename.data →
      filesHandler outputDir filename fileExists = .badRequest) ∧
    (strStartsWith (pathResolve2 outputDir filename)
        (pathResolve1 outputDir ++ "/") = false →
      filesHandler outputDir filename fileExists = .badRequest) ∧
    (∀ p, filesHandler outputDir filename fileExists = .served p →
      filename = pathBasename filename ∧
      strStartsWith p (pathResolve1 outputDir ++ "/") = true ∧
      fileExists = true) := by
  refine ⟨fun hmem => ?_, fun hesc => ?_, fun p hp => ?_⟩
  · have hne : filename ≠ pathBasename filename := by
      intro he
      exact pathBasename_no_slash filename (he ▸ hmem)
    simp [filesHandler, hne]
  · simp only [filesHandler]
    split_ifs <;> rfl
  · simp only [filesHandler] at hp
    split_ifs at hp with h1 h2 h3
    injection hp with he
    refine ⟨not_not.mp h1, ?_, by simpa using h3⟩
    rw [← he]
    simpa using h2

/-- Witness for C7: the endpoint rejects "../secret.png" and "/etc/passwd"
even for existing files, and serves a flat name only from inside the root. -/
theorem files_endpoint_flat_only_witness :
    filesHandler "/data/out" "../secret.png" true = .badRequest ∧
    filesHandler "/data/out" "/etc/passwd" true = .badRequest ∧
    ("a.png" = pathBasename "a.png" ∧
     strStartsWith "/data/out/a.png" (pathResolve1 "/data/out" ++ "/") = true ∧
     true = true) :=
  ⟨(files_endpoint_flat_only "/data/out" "../secret.png" true).1 (by decide),
   (files_endpoint_flat_only "/data/out" "/etc/passwd" true).1 (by decide),
   (files_endpoint_flat_only "/data/out" "a.png" true).2.2
     "/data/out/a.png" (by decide)⟩

/-- C9: a failure whose message marks an invalid API key, quota exhaustion
or permission denial is propagated at once, with no further call and no
backoff sleep beyond those already performed; any other failure is retried
after exponentially growing delays (1000ms, then 2000ms) up to three total
attempts, after which the last error is propagated. -/
theorem withRetry_policy {A : Type} :
    (∀ (f : Nat → Except RErr A) (k : Nat) (e : RErr), k < 3 →
      (∀ i, i < k → ∃ ei, f i = .error ei ∧ isFatalErr ei = false) →
      f k = .error e → isFatalErr e = true →
      withRetry f =
        ⟨.error e, k + 1, (List.range k).map (fun i => 1000 * 2 ^ i)⟩) ∧
    (∀ (f : Nat → Except RErr A) (e0 e1 e2 : RErr),
      f 0 = .error e0 → isFatalErr e0 = false →
      f 1 = .error e1 → isFatalErr e1 = false →
      f 2 = .error e2 → isFatalErr e2 = false →
      withRetry f = ⟨.error e2, 3, [1000, 2000]⟩) := by
  constructor
  · intro f k e hk hpre hfk hfat
    interval_cases k
    · simp [withRetry, retryLoop, hfk, hfat]
    · obtain ⟨e0, hf0, hnf0⟩ := hpre 0 (by omega)
      simp [withRetry, retryLoop, hf0, hnf0, hfk, hfat, List.range_succ]
    · obtain ⟨e0, hf0, hnf0⟩ := hpre 0 (by omega)
      obtain ⟨e1, hf1, hnf1⟩ := hpre 1 (by omega)
      simp [withRetry, retryLoop, hf0, hnf0, hf1, hnf1, hfk, hfat,
        List.range_succ]
  · intro f e0 e1 e2 hf0 hnf0 hf1 hnf1 hf2 hnf2
    simp [withRetry, retryLoop, hf0, hnf0, hf1, hnf1, hf2, hnf2]

/-- Witness for C9: a quota failure on the first call is propagated with a
single call and no sleeps; a persistent transient failure is called three
times with sleeps of 1000ms and 2000ms and then propagated. -/
theorem withRetry_policy_witness :
    withRetry (A := Unit) (fun _ => .error ⟨"Quota exceeded for project"⟩) =
      ⟨.error ⟨"Quota exceeded for project"⟩, 1, []⟩ ∧
    withRetry (A := Unit) (fun _ => .error ⟨"network unreachable"⟩) =
      ⟨.error ⟨"network unreachable"⟩, 3, [1000, 2000]⟩ :=
  ⟨withRetry_policy.1 (fun _ => .error ⟨"Quota exceeded for project"⟩) 0
      ⟨"Quota exceeded for project"⟩ (by omega)
      (fun i hi => (Nat.not_lt_zero i hi).elim) rfl (by decide),
   withRetry_policy.2 (fun _ => .error ⟨"network unreachable"⟩)
      ⟨"network unreachable"⟩ ⟨"network unreachable"⟩ ⟨"network unreachable"⟩
      rfl (by decide) rfl (by decide) rfl (by decide)⟩

/-- The score fold equals the sum of word counts over matched phrases. -/
theorem categoryScore_eq_sum (lower : String) (kws : List String) :
    categoryScore lower kws =
      ((kws.filter (fun kw => jsIncludes lower kw)).map keywordWords).sum := by
  have hgen : ∀ (l : List String) (acc : Nat),
      l.foldl (fun acc kw =>
        if jsIncludes lower kw then acc + keywordWords kw else acc) acc =
      acc + ((l.filter (fun kw => jsIncludes lower kw)).map keywordWords).sum := by
    intro l
    induction l with
    | nil => intro acc; simp
    | cons kw rest ih =>
      intro acc
      by_cases h : jsIncludes lower kw <;>
        simp [h, ih, Nat.add_assoc]
  simpa [categoryScore] using hgen kws 0

/-- C2: each category scores the sum of the word counts of its trigger
phrases contained in the lowercased prompt; with no positive score the
category is "visualization"; confidence is high exactly when the top score
is at least 3 with the runner-up below 70 percent of it, medium exactly
when (not high and) the top score is at least 2 or is at least 1 with the
runner-up below 70 percent, and low otherwise. -/
theorem detect_confidence_spec (prompt : String) :
    (∀ cat kws, (cat, kws) ∈ TYPE_KEYWORDS →
      categoryScore (jsToLower prompt) kws =
        ((kws.filter (fun kw => jsIncludes (jsToLower prompt) kw)).map
          keywordWords).sum) ∧
    (sortedScores (jsToLower prompt) = [] →
      (detectTypeWithConfidence prompt).type = "visualization" ∧
      (detectTypeWithConfidence prompt).confidence = .low) ∧
    (∀ top rest, sortedScores (jsToLower prompt) = top :: rest →
      ((detectTypeWithConfidence prompt).confidence = .high ↔
        top.2 ≥ 3 ∧ ∀ r rs, rest = r :: rs → 10 * r.2 < 7 * top.2) ∧
      ((detectTypeWithConfidence prompt).confidence = .medium ↔
        ¬((detectTypeWithConfidence prompt).confidence = .high) ∧
        (top.2 ≥ 2 ∨
          (top.2 ≥ 1 ∧ ∀ r rs, rest = r :: rs → 10 * r.2 < 7 * top.2)))) := by
  refine ⟨fun cat kws _ => categoryScore_eq_sum _ kws, fun h => ?_,
          fun top rest hs => ?_⟩
  · simp [detectTypeWithConfidence, h]
  · rcases rest with _ | ⟨r, rs⟩
    · simp only [detectTypeWithConfidence, hs, hasCompetition]
      by_cases h3 : top.2 ≥ 3
      · simp [h3]
      · by_cases h1 : top.2 ≥ 1
        · by_cases h2 : top.2 ≥ 2 <;> simp [h3, h1, h2]
        · have h2 : ¬top.2 ≥ 2 := by omega
          simp [h3, h1, h2]
    · simp only [detectTypeWithConfidence, hs, hasCompetition]
      by_cases hc : 10 * r.2 ≥ 7 * top.2 <;> by_cases h3 : top.2 ≥ 3 <;>
        by_cases h2 : top.2 ≥ 2 <;> by_cases h1 : top.2 ≥ 1 <;>
        simp [hc, h3, h2, h1] <;> omega

/-- Witness for C2: the comparison category reaches score 2 across two
single-word phrase matches with no competitor, hence medium confidence;
an unmatched prompt falls back to "visualization" with low confidence. -/
theorem detect_confidence_spec_witness :
    categoryScore (jsToLower "Compare latency: 450ms before vs 120ms after")
        (["comparison", "compare", "vs", "versus", "before after",
          "before/after", "old new", "old/new", "difference", "improvement",
          "baseline"]) = 2 ∧
    (detectTypeWithConfidence "zzzz").type = "visualization" ∧
    (detectTypeWithConfidence "zzzz").confidence = .low ∧
    (detectTypeWithConfidence
        "Compare latency: 450ms before vs 120ms after").confidence =
      .medium := by
  refine ⟨by decide, ?_, ?_, ?_⟩
  · exact ((detect_confidence_spec "zzzz").2.1 (by decide)).1
  · exact ((detect_confidence_spec "zzzz").2.1 (by decide)).2
  · exact ((detect_confidence_spec
      "Compare latency: 450ms before vs 120ms after").2.2
        ("comparison", 2) [] (by decide)).2.mpr
      ⟨by decide, Or.inl (by decide)⟩

/-- Counterexample for C1: with the explicit size "1K" supplied, the prompt
word "presentation" still forces the recommended size to "4K"; with the
explicit aspect ratio "16:9" supplied, the prompt word "square" still
forces "1:1".  The prompt hints override the explicit parameters, not the
other way round. -/
theorem explicit_params_not_honored_cex :
    (analyzePrompt "presentation" { size := Option.some "1K" }).recommendedSize
      = "4K" ∧
    (analyzePrompt "presentation" { size := Option.some "1K" }).recommendedSize
      ≠ "1K" ∧
    (analyzePrompt "square"
      { aspectRatio := Option.some "16:9" }).recommendedAspectRatio = "1:1" ∧
    (analyzePrompt "square"
      { aspectRatio := Option.some "16:9" }).recommendedAspectRatio ≠ "16:9" := by
  refine ⟨by decide, by decide, by decide, by decide⟩

/-- The recommended size and aspect ratio fields of an analysis, as the
hint-first conditional chains of the source. -/
theorem analyzePrompt_fields (prompt : String) (options : GenerateOptions) :
    (analyzePrompt prompt options).recommendedSize =
      (if hasLargeSizeHint (jsToLower prompt) then "4K"
       else if hasSmallSizeHint (jsToLower prompt) then "1K"
       else orDefault options.size "2K") ∧
    (analyzePrompt prompt options).recommendedAspectRatio =
      (if hasSquareHint (jsToLower prompt) then "1:1"
       else if hasWideHint (jsToLower prompt) then "2:1"
       else if hasPortraitHint (jsToLower prompt) then "9:16"
       else orDefault options.aspectRatio
         (diagramTypeConfig (detectTypeWithConfidence prompt).type).1) := by
  constructor <;>
    (simp only [analyzePrompt, hasLargeSizeHint, hasSmallSizeHint,
      hasSquareHint, hasWideHint, hasPortraitHint]
     split_ifs <;> rfl)

/-- C1 (amended): the prompt hint words take precedence over the explicit
caller-supplied parameters — the recommended size is the hint tier whenever
a size-hint word occurs, and the caller's explicit size applies only when
no size-hint word occurs; likewise a composition hint word forces the
aspect ratio, and the explicit aspect-ratio parameter applies only when no
composition hint word occurs. -/
theorem analyzePrompt_hint_precedence (prompt : String)
    (options : GenerateOptions) :
    (hasLargeSizeHint (jsToLower prompt) = true →
      (analyzePrompt prompt options).recommendedSize = "4K") ∧
    (hasLargeSizeHint (jsToLower prompt) = false →
     hasSmallSizeHint (jsToLower prompt) = true →
      (analyzePrompt prompt options).recommendedSize = "1K") ∧
    (hasLargeSizeHint (jsToLower prompt) = false →
     hasSmallSizeHint (jsToLower prompt) = false →
      (analyzePrompt prompt options).recommendedSize =
        orDefault options.size "2K") ∧
    (hasSquareHint (jsToLower prompt) = true →
      (analyzePrompt prompt options).recommendedAspectRatio = "1:1") ∧
    (hasSquareHint (jsToLower prompt) = false →
     hasWideHint (jsToLower prompt) = true →
      (analyzePrompt prompt options).recommendedAspectRatio = "2:1") ∧
    (hasSquareHint (jsToLower prompt) = false →
     hasWideHint (jsToLower prompt) = false →
     hasPortraitHint (jsToLower prompt) = true →
      (analyzePrompt prompt options).recommendedAspectRatio = "9:16") ∧
    (hasSquareHint (jsToLower prompt) = false →
     hasWideHint (jsToLower prompt) = false →
     hasPortraitHint (jsToLower prompt) = false →
      (analyzePrompt prompt options).recommendedAspectRatio =
        orDefault options.aspectRatio
          (diagramTypeConfig (detectTypeWithConfidence prompt).type).1) := by
  obtain ⟨hsize, haspect⟩ := analyzePrompt_fields prompt options
  refine ⟨fun h1 => ?_, fun h1 h2 => ?_, fun h1 h2 => ?_, fun h1 => ?_,
          fun h1 h2 => ?_, fun h1 h2 h3 => ?_, fun h1 h2 h3 => ?_⟩ <;>
    simp_all

/-- Witness for C1 (amended): with no hint word in the prompt, the explicit
parameters are honored. -/
theorem analyzePrompt_hint_precedence_witness :
    (analyzePrompt "hello graph of data"
      ⟨Option.none, Option.some "4:3", Option.some "1K"⟩).recommendedSize
      = "1K" ∧
    (analyzePrompt "hello graph of data"
      ⟨Option.none, Option.some "4:3",
       Option.some "1K"⟩).recommendedAspectRatio = "4:3" :=
  ⟨((analyzePrompt_hint_precedence "hello graph of data"
      ⟨Option.none, Option.some "4:3", Option.some "1K"⟩).2.2.1
      (by decide) (by decide)).trans (by decide),
   ((analyzePrompt_hint_precedence "hello graph of data"
      ⟨Option.none, Option.some "4:3", Option.some "1K"⟩).2.2.2.2.2.2
      (by decide) (by decide) (by decide)).trans (by decide)⟩

/-- A low-confidence classification with no type override makes the
analysis demand clarification with the built question text. -/
theorem analyzePrompt_low_clarifies (prompt : String)
    (aspect size' : Option String) :
    (detectTypeWithConfidence prompt).confidence = .low →
    (analyzePrompt prompt ⟨Option.none, aspect, size'⟩).shouldProceed
      = false ∧
    (analyzePrompt prompt ⟨Option.none, aspect, size'⟩).clarifyingQuestion =
      Option.some
        (clarifyingText (detectTypeWithConfidence prompt).reasoning) := by
  intro h
  simp [analyzePrompt, truthy, h]

/-- C3: a generate call whose prompt classifies with low confidence and
that carries no explicit type override (the zod-defaulted "auto") returns
the clarifying-question response, never invokes the external generation
client, and leaves the stored last-image state untouched. -/
theorem generate_low_confidence_no_call (cfg : ServerConfig)
    (gen : GenCall → GenerationResult) (st : Option LastImageSession)
    (prompt : String) (output : Option String) (aspect : Option String)
    (size uuid : String) :
    (detectTypeWithConfidence prompt).confidence = .low →
    generateImageHandler cfg gen st prompt output "auto" aspect size uuid =
      { response := { text :=
          clarifyingText (detectTypeWithConfidence prompt).reasoning }
        state := st
        genCalled := false } := by
  intro h
  obtain ⟨hsp, hcq⟩ :=
    analyzePrompt_low_clarifies prompt aspect (Option.some size) h
  simp [generateImageHandler, hsp, hcq]

/-- Witness for C3: a prompt with no category keyword ("presentation")
classifies low; with type "auto" the handler answers with the clarifying
question, calls nothing, and keeps the (empty) state. -/
theorem generate_low_confidence_no_call_witness :
    generateImageHandler ⟨"/out", Option.none, false, false, false⟩
      (fun _ => { success := false }) Option.none "presentation" Option.none
      "auto" Option.none "2K" "u" =
      { response := { text := (clarifyingText
            (detectTypeWithConfidence "presentation").reasoning) }
        state := Option.none
        genCalled := false } :=
  generate_low_confidence_no_call ⟨"/out", Option.none, false, false, false⟩
    (fun _ => { success := false }) Option.none "presentation" Option.none
    Option.none "2K" "u" (by decide)

/-- A list is a prefix of itself followed by anything. -/
theorem isPfx_append (a b : List Char) : isPfx a (a ++ b) = true := by
  induction a with
  | nil => rfl
  | cons c cs ih => simp [isPfx, ih]

/-- A prefix is no longer than its host. -/
theorem isPfx_length_le (a b : List Char) (h : isPfx a b = true) :
    a.length ≤ b.length := by
  induction a generalizing b with
  | nil => simp
  | cons c cs ih =>
    cases b with
    | nil => simp [isPfx] at h
    | cons d ds =>
      simp only [isPfx, Bool.and_eq_true] at h
      simpa using ih ds h.2

/-- Lowercasing distributes over append. -/
theorem jsToLower_append (x y : String) :
    jsToLower (x ++ y) = jsToLower x ++ jsToLower y := by
  apply String.ext
  simp [jsToLower]

/-- A string always ends with its own appended suffix. -/
theorem strEndsWith_append (x y : String) : strEndsWith (x ++ y) y = true := by
  simp only [strEndsWith, String.data_append, List.reverse_append]
  exact isPfx_append _ _

/-- Appending ".png" yields a name whose lowercase form ends in ".png". -/
theorem endsPngCI_append (x : String) :
    strEndsWith (jsToLower (x ++ ".png")) ".png" = true := by
  rw [jsToLower_append, show jsToLower ".png" = ".png" from rfl]
  exact strEndsWith_append _ _

/-- The result of `ensurePngExtension` always lowercase-ends in ".png". -/
theorem ensurePng_endsPngCI (y : String) :
    strEndsWith (jsToLower (ensurePngExtension y)) ".png" = true := by
  unfold ensurePngExtension
  split_ifs with h
  · exact h
  · exact endsPngCI_append y

/-- Every sanitized filename lowercase-ends in ".png". -/
theorem sanitize_endsPngCI (input uuid : String) :
    strEndsWith (jsToLower (sanitizeFilename input uuid)) ".png" = true := by
  simp only [sanitizeFilename]
  split_ifs <;> first
    | exact ensurePng_endsPngCI _
    | exact endsPngCI_append _

/-- Lowercasing preserves length. -/
theorem jsToLower_length (s : String) :
    (jsToLower s).data.length = s.data.length := by
  simp [jsToLower]

/-- A name whose lowercase form ends in ".png" has at least four
characters, hence is none of "", "." or "..". -/
theorem endsPng_not_degenerate (f : String)
    (h : strEndsWith (jsToLower f) ".png" = true) :
    f ≠ "" ∧ f ≠ "." ∧ f ≠ ".." := by
  have hlen : 4 ≤ f.data.length := by
    have h1 := isPfx_length_le _ _ h
    simp only [List.length_reverse] at h1
    rw [jsToLower_length] at h1
    exact le_trans (by decide) h1
  refine ⟨fun he => ?_, fun he => ?_, fun he => ?_⟩ <;>
    (rw [he] at hlen; exact absurd hlen (by decide))

/-- Characters surviving the sanitizing replacement are never separators. -/
theorem sanitizeMap_no_slash (l : List Char) :
    '/' ∉ l.map (fun c => if keepChar c then c else '_') := by
  intro hm
  obtain ⟨a, _, ha⟩ := List.mem_map.mp hm
  by_cases hk : keepChar a
  · rw [if_pos hk] at ha
    rw [ha] at hk
    exact absurd hk (by decide)
  · rw [if_neg hk] at ha
    exact absurd ha (by decide)

/-- `ensurePngExtension` introduces no separator. -/
theorem ensurePng_no_slash (y : String) (h : '/' ∉ y.data) :
    '/' ∉ (ensurePngExtension y).data := by
  unfold ensurePngExtension
  split_ifs
  · exact h
  · intro hm
    rcases List.mem_append.mp hm with hm | hm
    · exact h hm
    · simp at hm

/-- Taking a prefix of the characters introduces no separator. -/
theorem take_no_slash (l : List Char) (n : Nat) (h : '/' ∉ l) :
    '/' ∉ l.take n :=
  fun hm => h (List.mem_of_mem_take hm)

/-- The truncation step introduces no separator. -/
theorem stripPng_no_slash (s : String) (h : '/' ∉ s.data) :
    '/' ∉ (stripPngSuffixCI s).data := by
  unfold stripPngSuffixCI
  split_ifs
  · exact take_no_slash _ _ h
  · exact h

/-- A sanitized filename contains no separator, provided the UUID used for
the degenerate fallback contains none. -/
theorem sanitize_no_slash (input uuid : String) (hu : '/' ∉ uuid.data) :
    '/' ∉ (sanitizeFilename input uuid).data := by
  have hguard : '/' ∉ ("image_" ++ uuidSlice8 uuid ++ ".png").data := by
    intro hm
    rcases List.mem_append.mp hm with hm | hm
    · rcases List.mem_append.mp hm with hm | hm
      · simp at hm
      · exact take_no_slash _ _ hu hm
    · simp at hm
  have hclean : '/' ∉ (ensurePngExtension (String.mk
      ((pathBasename input).data.map
        (fun c => if keepChar c then c else '_')))).data :=
    ensurePng_no_slash _ (sanitizeMap_no_slash _)
  simp only [sanitizeFilename]
  split_ifs with h1 h2 h3
  · exact ensurePng_no_slash _ (stripPng_no_slash _ (take_no_slash _ _ hguard))
  · exact hguard
  · exact ensurePng_no_slash _ (stripPng_no_slash _ (take_no_slash _ _ hclean))
  · exact hclean

/-- Splitting a list free of the separator yields that single run. -/
theorem splitOnChar_no_sep (sep : Char) (l : List Char) (h : sep ∉ l) :
    splitOnChar sep l = [l] := by
  induction l with
  | nil => rfl
  | cons c cs ih =>
    have hc : ¬(c == sep) = true := by
      simp only [beq_iff_eq]
      intro he
      exact h (he ▸ List.mem_cons_self c cs)
    have hcs : sep ∉ cs := fun hm => h (List.mem_cons_of_mem c hm)
    simp [splitOnChar, ih hcs, hc]

/-- A separator-free string is its own single path component. -/
theorem pathComps_single (s : String) (h : '/' ∉ s.data) :
    pathComps s = [s] := by
  simp [pathComps, splitOnChar_no_sep '/' s.data h]

/-- Resolving a trailing normal component just appends it. -/
theorem resolveComps_append_normal (c : String) (h0 : c ≠ "") (h1 : c ≠ ".")
    (h2 : c ≠ "..") (l acc : List String) :
    resolveComps acc (l ++ [c]) = resolveComps acc l ++ [c] := by
  induction l generalizing acc with
  | nil => simp [resolveComps, h0, h1, h2]
  | cons x xs ih =>
    simp only [List.cons_append, resolveComps]
    split_ifs <;> exact ih _

/-- A separator-free string is not absolute. -/
theorem isAbsolutePath_no_slash (s : String) (h : '/' ∉ s.data) :
    isAbsolutePath s = false := by
  unfold isAbsolutePath
  cases hd : s.data with
  | nil => rfl
  | cons c cs =>
    have hc : ¬('/' == c) = true := by
      simp only [beq_iff_eq]
      intro he
      exact h (hd ▸ he ▸ List.mem_cons_self c cs)
    simp [isPfx, hc]

/-- dropWhile is the identity when no element satisfies the predicate. -/
theorem dropWhile_of_none (p : Char → Bool) (l : List Char)
    (h : ∀ c ∈ l, p c = false) : l.dropWhile p = l := by
  cases l with
  | nil => rfl
  | cons c cs =>
    rw [List.dropWhile_cons_of_neg]
    simp [h c (List.mem_cons_self c cs)]

/-- A separator-free string is its own basename. -/
theorem pathBasename_self (s : String) (h : '/' ∉ s.data) :
    pathBasename s = s := by
  simp only [pathBasename]
  have h1 : s.data.reverse.dropWhile (fun c => c == '/') = s.data.reverse := by
    apply dropWhile_of_none
    intro c hc
    simp only [beq_eq_false_iff_ne, ne_eq]
    intro he
    exact h (he ▸ List.mem_reverse.mp hc)
  rw [h1]
  have h2 : s.data.reverse.takeWhile (fun c => !(c == '/')) =
      s.data.reverse := by
    rw [List.takeWhile_eq_self_iff]
    intro c hc
    simp only [Bool.not_eq_true', beq_eq_false_iff_ne, ne_eq]
    intro he
    exact h (he ▸ List.mem_reverse.mp hc)
  rw [h2, List.reverse_reverse]

/-- Characters of the accumulated intercalation come from the accumulator,
the separator, or one of the parts. -/
theorem intercalate_go_chars (parts : List String) (acc sep : String)
    (c : Char) (h : c ∈ (String.intercalate.go acc sep parts).data) :
    c ∈ acc.data ∨ c ∈ sep.data ∨ ∃ p ∈ parts, c ∈ p.data := by
  induction parts generalizing acc with
  | nil => exact Or.inl h
  | cons a as ih =>
    rcases ih (acc ++ sep ++ a) h with hm | hm | ⟨p, hp, hm⟩
    · rcases List.mem_append.mp hm with hm | hm
      · rcases List.mem_append.mp hm with hm | hm
        · exact Or.inl hm
        · exact Or.inr (Or.inl hm)
      · exact Or.inr (Or.inr ⟨a, List.mem_cons_self a as, hm⟩)
    · exact Or.inr (Or.inl hm)
    · exact Or.inr (Or.inr ⟨p, List.mem_cons_of_mem a hp, hm⟩)

/-- Characters of an intercalation come from the separator or a part. -/
theorem intercalate_chars (sep : String) (parts : List String) (c : Char)
    (h : c ∈ (String.intercalate sep parts).data) :
    c ∈ sep.data ∨ ∃ p ∈ parts, c ∈ p.data := by
  cases parts with
  | nil => simp [String.intercalate] at h
  | cons a as =>
    rcases intercalate_go_chars as a sep c h with hm | hm | ⟨p, hp, hm⟩
    · exact Or.inr ⟨a, List.mem_cons_self a as, hm⟩
    · exact Or.inl hm
    · exact Or.inr ⟨p, List.mem_cons_of_mem a hp, hm⟩

/-- Characters of every whitespace run come from the current run
accumulator or the input. -/
theorem splitRunsGo_chars (l cur : List Char) (w : List Char) (c : Char)
    (hw : w ∈ splitRunsGo cur l) (hc : c ∈ w) : c ∈ cur ∨ c ∈ l := by
  induction l generalizing cur with
  | nil =>
    unfold splitRunsGo at hw
    split_ifs at hw with h
    · simp at hw
    · rcases List.mem_singleton.mp hw with rfl
      exact Or.inl (List.mem_reverse.mp hc)
  | cons a as ih =>
    unfold splitRunsGo at hw
    split_ifs at hw with hws hcur
    · rcases ih [] hw with hm | hm
      · simp at hm
      · exact Or.inr (List.mem_cons_of_mem a hm)
    · rcases List.mem_cons.mp hw with rfl | hw2
      · exact Or.inl (List.mem_reverse.mp hc)
      · rcases ih [] hw2 with hm | hm
        · simp at hm
        · exact Or.inr (List.mem_cons_of_mem a hm)
    · rcases ih (a :: cur) hw with hm | hm
      · rcases List.mem_cons.mp hm with rfl | hm2
        · exact Or.inr (List.mem_cons_self c as)
        · exact Or.inl hm2
      · exact Or.inr (List.mem_cons_of_mem a hm)

/-- A slug never contains a separator. -/
theorem slug_no_slash (prompt : String) :
    '/' ∉ (slugFromPrompt prompt).data := by
  simp only [slugFromPrompt]
  split_ifs with h
  · decide
  · intro hm
    rcases intercalate_chars _ _ _ hm with hsep | ⟨p, hp, hmp⟩
    · simp at hsep
    · obtain ⟨w, hw, rfl⟩ := List.mem_map.mp hp
      have hw2 := List.mem_of_mem_filter (List.mem_of_mem_take hw)
      rcases splitRunsGo_chars _ _ _ _ hw2 hmp with hm2 | hm2
      · simp at hm2
      · obtain ⟨a, _, ha⟩ := List.mem_map.mp hm2
        split_ifs at ha with hk
        · rw [ha] at hk
          exact absurd hk (by decide)
        · exact absurd ha (by decide)

/-- C6: in multi-tenant mode (absolute output paths and subdirectories
both disallowed) every resolved output path is a direct child of the
normalized output directory, named by a separator-free, non-degenerate
sanitized filename (auto-generated when no output is supplied), so it can
never traverse outside that directory; in single-client embedded mode
(absolute paths and subdirectories allowed) an absolute output path is
honored as-is. -/
theorem resolveOutputPath_trust_boundary (outputDir prompt uuid : String)
    (output : Option String) (hu : '/' ∉ uuid.data) :
    (∀ out, output = Option.some out → out ≠ "" →
      resolveOutputPath outputDir output prompt false false uuid =
        ("/" ++ String.intercalate "/"
          (resolveComps [] (pathComps outputDir) ++
            [sanitizeFilename out uuid]),
         Option.some (sanitizeFilename out uuid)) ∧
      '/' ∉ (sanitizeFilename out uuid).data ∧
      sanitizeFilename out uuid ≠ "" ∧ sanitizeFilename out uuid ≠ "." ∧
      sanitizeFilename out uuid ≠ "..") ∧
    (output = Option.none →
      resolveOutputPath outputDir output prompt false false uuid =
        ("/" ++ String.intercalate "/"
          (resolveComps [] (pathComps outputDir) ++
            [slugFromPrompt prompt ++ "_" ++ uuidSlice8 uuid ++ ".png"]),
         Option.some
           (slugFromPrompt prompt ++ "_" ++ uuidSlice8 uuid ++ ".png")) ∧
      '/' ∉ (slugFromPrompt prompt ++ "_" ++ uuidSlice8 uuid ++
        ".png").data) ∧
    (∀ out, output = Option.some out → isAbsolutePath out = true →
      resolveOutputPath outputDir output prompt true true uuid =
        (out, Option.none)) := by
  have hres : ∀ f : String, '/' ∉ f.data → f ≠ "" → f ≠ "." → f ≠ ".." →
      pathResolve2 outputDir f =
        "/" ++ String.intercalate "/"
          (resolveComps [] (pathComps outputDir) ++ [f]) := by
    intro f hns h0 h1 h2
    unfold pathResolve2
    rw [isAbsolutePath_no_slash f hns]
    simp only [Bool.false_eq_true, if_false]
    rw [pathComps_single f hns, resolveComps_append_normal f h0 h1 h2]
  have hauto_ns : '/' ∉ (slugFromPrompt prompt ++ "_" ++ uuidSlice8 uuid ++
      ".png").data := by
    intro hm
    rcases List.mem_append.mp hm with hm | hm
    · rcases List.mem_append.mp hm with hm | hm
      · rcases List.mem_append.mp hm with hm | hm
        · exact slug_no_slash prompt hm
        · simp at hm
      · exact take_no_slash _ _ hu hm
    · simp at hm
  have hauto_png :
      strEndsWith (jsToLower (slugFromPrompt prompt ++ "_" ++
        uuidSlice8 uuid ++ ".png")) ".png" = true :=
    endsPngCI_append _
  obtain ⟨ha0, ha1, ha2⟩ := endsPng_not_degenerate _ hauto_png
  have hautoeq :
      (pathResolve2 outputDir (slugFromPrompt prompt ++ "_" ++
          uuidSlice8 uuid ++ ".png"),
        Option.some (pathBasename (slugFromPrompt prompt ++ "_" ++
          uuidSlice8 uuid ++ ".png"))) =
      ("/" ++ String.intercalate "/"
        (resolveComps [] (pathComps outputDir) ++
          [slugFromPrompt prompt ++ "_" ++ uuidSlice8 uuid ++ ".png"]),
       Option.some
         (slugFromPrompt prompt ++ "_" ++ uuidSlice8 uuid ++ ".png")) := by
    rw [pathBasename_self _ hauto_ns, hres _ hauto_ns ha0 ha1 ha2]
  refine ⟨fun out heq hne => ?_, fun heq => ?_, fun out heq habs => ?_⟩
  · subst heq
    have hsan_ns := sanitize_no_slash out uuid hu
    obtain ⟨hs0, hs1, hs2⟩ :=
      endsPng_not_degenerate _ (sanitize_endsPngCI out uuid)
    refine ⟨?_, hsan_ns, hs0, hs1, hs2⟩
    simp only [resolveOutputPath]
    rw [if_neg hne]
    simp only [Bool.false_and, Bool.false_eq_true, if_false]
    rw [pathBasename_self _ hsan_ns, hres _ hsan_ns hs0 hs1 hs2]
  · subst heq
    refine ⟨?_, hauto_ns⟩
    simp only [resolveOutputPath]
    exact hautoeq
  · subst heq
    have hne : out ≠ "" := by
      intro he
      rw [he] at habs
      exact absurd habs (by decide)
    simp only [resolveOutputPath]
    rw [if_neg hne]
    simp [habs]

/-- Witness for C6: a traversal attempt is flattened to a direct child of
the output directory, the auto-generated name is also a direct child, and
the embedded mode honors an absolute path. -/
theorem resolveOutputPath_trust_boundary_witness :
    resolveOutputPath "/data/out" (Option.some "../../etc/passwd") "x"
        false false "abcd1234" =
      ("/" ++ String.intercalate "/"
        (resolveComps [] (pathComps "/data/out") ++
          [sanitizeFilename "../../etc/passwd" "abcd1234"]),
       Option.some (sanitizeFilename "../../etc/passwd" "abcd1234")) ∧
    sanitizeFilename "../../etc/passwd" "abcd1234" ≠ ".." ∧
    resolveOutputPath "/tmp/sub" (Option.some "/tmp/x.png") "x" true true
        "abcd1234" = ("/tmp/x.png", Option.none) :=
  ⟨((resolveOutputPath_trust_boundary "/data/out" "x" "abcd1234"
      (Option.some "../../etc/passwd") (by decide)).1 "../../etc/passwd" rfl
      (by decide)).1,
   ((resolveOutputPath_trust_boundary "/data/out" "x" "abcd1234"
      (Option.some "../../etc/passwd") (by decide)).1 "../../etc/passwd" rfl
      (by decide)).2.2.2.2,
   (resolveOutputPath_trust_boundary "/tmp/sub" "x" "abcd1234"
      (Option.some "/tmp/x.png") (by decide)).2.2 "/tmp/x.png" rfl
      (by decide)⟩

end GeminiDiagram
